import Mathlib

/-!
# Verification of the mido core against its specification

The repository ships `mido/__init__.py` (the top-level module: `__all__`,
`set_backend`, backend attribute injection).  The submodules it imports
(`mido.messages`, `mido.parser`, `mido.midifiles`, `mido.backends.backend`)
are declared and re-exported there but their sources are not in the tree,
so those parts are modelled from the specification (each such definition
carries a doc comment starting `Modelled from the spec:`).
-/

/-- Modelled from the spec: the closed set of live-wire MIDI message types
of `mido.messages.Message` (source file `mido/messages.py` is absent).
Channel messages carry a channel 0–15 plus data bytes 0–127, except
`pitchwheel` (signed 14-bit) and `sysex` (arbitrary-length 7-bit data). -/
inductive Msg where
  | note_off (channel note velocity : Nat)
  | note_on (channel note velocity : Nat)
  | polytouch (channel note value : Nat)
  | control_change (channel control value : Nat)
  | program_change (channel program : Nat)
  | aftertouch (channel value : Nat)
  | pitchwheel (channel : Nat) (pitch : Int)
  | sysex (data : List Nat)
  | quarter_frame (frame_type frame_value : Nat)
  | songpos (pos : Nat)
  | song_select (song : Nat)
  | tune_request
  | clock
  | start
  | continue_
  | stop
  | active_sensing
  | reset
  deriving DecidableEq

/-- Modelled from the spec: the declared valid ranges of each message
type's constructor arguments (spec section 3: channel 0–15, data bytes
0–127, pitchwheel −8192..8191, sysex data all 0–127, songpos 14-bit). -/
def Msg.valid : Msg → Prop
  | .note_off ch n v => ch < 16 ∧ n < 128 ∧ v < 128
  | .note_on ch n v => ch < 16 ∧ n < 128 ∧ v < 128
  | .polytouch ch n v => ch < 16 ∧ n < 128 ∧ v < 128
  | .control_change ch c v => ch < 16 ∧ c < 128 ∧ v < 128
  | .program_change ch p => ch < 16 ∧ p < 128
  | .aftertouch ch v => ch < 16 ∧ v < 128
  | .pitchwheel ch p => ch < 16 ∧ -8192 ≤ p ∧ p ≤ 8191
  | .sysex d => ∀ x ∈ d, x < 128
  | .quarter_frame t v => t < 8 ∧ v < 16
  | .songpos p => p < 16384
  | .song_select s => s < 128
  | _ => True

instance (m : Msg) : Decidable m.valid := by
  cases m <;> simp only [Msg.valid] <;> infer_instance

/-- Modelled from the spec: `Message.encode()` (source file
`mido/messages.py` is absent).  Deterministic wire encoding per the MIDI
spec: status byte composed from type and channel, followed by 0–2 data
bytes, or a sysex frame `0xF0 data… 0xF7`.  Two-byte values (pitchwheel,
songpos) are sent least-significant 7 bits first. -/
def Msg.encode : Msg → List Nat
  | .note_off ch n v => [0x80 + ch, n, v]
  | .note_on ch n v => [0x90 + ch, n, v]
  | .polytouch ch n v => [0xA0 + ch, n, v]
  | .control_change ch c v => [0xB0 + ch, c, v]
  | .program_change ch p => [0xC0 + ch, p]
  | .aftertouch ch v => [0xD0 + ch, v]
  | .pitchwheel ch p =>
      [0xE0 + ch, (p + 8192).toNat % 128, (p + 8192).toNat / 128]
  | .sysex d => 0xF0 :: (d ++ [0xF7])
  | .quarter_frame t v => [0xF1, 16 * t + v]
  | .songpos p => [0xF2, p % 128, p / 128]
  | .song_select s => [0xF3, s]
  | .tune_request => [0xF6]
  | .clock => [0xF8]
  | .start => [0xFA]
  | .continue_ => [0xFB]
  | .stop => [0xFC]
  | .active_sensing => [0xFE]
  | .reset => [0xFF]

/-- Modelled from the spec: the header of a partially-collected message in
the byte-stream parser (source file `mido/parser.py` is absent): either a
channel-voice status (type nibble 8–14 and channel) or one of the
data-carrying system-common statuses. -/
inductive Pending where
  | channelMsg (t ch : Nat)
  | quarterFrame
  | songPosition
  | songSelect
  deriving DecidableEq

/-- Modelled from the spec: the number of data bytes each pending status
collects before a message is emitted (0xC program_change and 0xD
aftertouch take one data byte; other channel voice messages take two). -/
def Pending.needed : Pending → Nat
  | .channelMsg t _ => if t = 12 ∨ t = 13 then 1 else 2
  | .quarterFrame => 1
  | .songPosition => 2
  | .songSelect => 1

/-- Modelled from the spec: building the completed message from a pending
status and its collected data bytes (the parser's internal
`decode_from`).  Unrecognized combinations produce `none` and are
discarded. -/
def Pending.build : Pending → List Nat → Option Msg
  | .channelMsg 8 ch, [n, v] => some (.note_off ch n v)
  | .channelMsg 9 ch, [n, v] => some (.note_on ch n v)
  | .channelMsg 10 ch, [n, v] => some (.polytouch ch n v)
  | .channelMsg 11 ch, [c, v] => some (.control_change ch c v)
  | .channelMsg 12 ch, [p] => some (.program_change ch p)
  | .channelMsg 13 ch, [v] => some (.aftertouch ch v)
  | .channelMsg 14 ch, [l, m] => some (.pitchwheel ch ((m * 128 + l : Int) - 8192))
  | .quarterFrame, [d] => some (.quarter_frame (d / 16) (d % 16))
  | .songPosition, [l, m] => some (.songpos (m * 128 + l))
  | .songSelect, [s] => some (.song_select s)
  | _, _ => none

/-- Modelled from the spec: the `ParserState` owned by one `Parser`
(source file `mido/parser.py` is absent): the pending-message buffer, the
running status, the in-progress sysex accumulation and the FIFO output
queue of completed messages. -/
structure ParserState where
  current : Option (Pending × List Nat)
  running_status : Option (Nat × Nat)
  in_sysex : Option (List Nat)
  messages : List Msg
  deriving DecidableEq

/-- Modelled from the spec: classification of an incoming byte value:
data byte (< 0x80), channel-voice status (0x80–0xEF, split into type
nibble and channel), sysex start 0xF0, sysex end 0xF7, system common
(0xF1–0xF6), or real-time (0xF8–0xFF). -/
inductive ByteClass where
  | dataByte (b : Nat)
  | channelStatus (t ch : Nat)
  | sysexStart
  | sysexEnd
  | systemCommon (b : Nat)
  | realtime (b : Nat)
  deriving DecidableEq

/-- Modelled from the spec: how the parser classifies one byte. -/
def classify (b : Nat) : ByteClass :=
  if b < 0x80 then .dataByte b
  else if b < 0xF0 then .channelStatus (b / 16) (b % 16)
  else if b = 0xF0 then .sysexStart
  else if b = 0xF7 then .sysexEnd
  else if b < 0xF8 then .systemCommon b
  else .realtime b

/-- Append an optional completed message to the parser's output queue. -/
def emit (st : ParserState) (m : Option Msg) : ParserState :=
  { st with messages := st.messages ++ m.toList }

/-- Modelled from the spec: a new non-real-time status byte implicitly
terminates an in-progress sysex, emitting the (possibly truncated) sysex
before the new status is processed. -/
def flushSysex (st : ParserState) : ParserState :=
  match st.in_sysex with
  | some data => { st with in_sysex := none, messages := st.messages ++ [.sysex data] }
  | none => st

/-- Modelled from the spec: the self-contained real-time messages
(0xF8 clock, 0xFA start, 0xFB continue, 0xFC stop, 0xFE active sensing);
the reserved bytes 0xF9 and 0xFD are silently discarded. -/
def realtimeMsg (b : Nat) : Option Msg :=
  if b = 0xF8 then some .clock
  else if b = 0xFA then some .start
  else if b = 0xFB then some .continue_
  else if b = 0xFC then some .stop
  else if b = 0xFE then some .active_sensing
  else none

/-- Modelled from the spec: the data-carrying system-common statuses
(0xF1 quarter frame, 0xF2 song position, 0xF3 song select); 0xF4 and 0xF5
are reserved and discarded. -/
def pendingForCommon (b : Nat) : Option Pending :=
  if b = 0xF1 then some .quarterFrame
  else if b = 0xF2 then some .songPosition
  else if b = 0xF3 then some .songSelect
  else none

/-- Modelled from the spec: append one data byte to the pending message,
emitting the completed message once the declared number of data bytes has
been collected. -/
def addData (st : ParserState) (p : Pending) (args : List Nat) (b : Nat) : ParserState :=
  let args' := args ++ [b]
  if args'.length = p.needed then
    emit { st with current := none } (p.build args')
  else
    { st with current := some (p, args') }

/-- Modelled from the spec: `Parser.feed_byte` (source file
`mido/parser.py` is absent).  Advances the state machine by exactly one
byte: real-time bytes are emitted immediately without disturbing the
state (0xFF is system reset and clears all state while emitting `reset`);
a channel-voice status sets the running status; system-common statuses
0xF1–0xF6 clear it; data bytes feed the sysex buffer, the pending
message, or the running status, and are discarded while idle. -/
def feed_byte (st : ParserState) (b : Nat) : ParserState :=
  match classify b with
  | .realtime rb =>
      if rb = 0xFF then
        { current := none, running_status := none, in_sysex := none,
          messages := st.messages ++ [.reset] }
      else emit st (realtimeMsg rb)
  | .dataByte d =>
      match st.in_sysex with
      | some data => { st with in_sysex := some (data ++ [d]) }
      | none =>
        match st.current with
        | some (p, args) => addData st p args d
        | none =>
          match st.running_status with
          | some (t, ch) => addData st (.channelMsg t ch) [] d
          | none => st
  | .channelStatus t ch =>
      { flushSysex st with current := some (.channelMsg t ch, []),
                           running_status := some (t, ch) }
  | .sysexStart =>
      { flushSysex st with current := none, in_sysex := some [] }
  | .sysexEnd =>
      { flushSysex st with current := none }
  | .systemCommon cb =>
      if cb = 0xF6 then
        emit { flushSysex st with current := none, running_status := none }
             (some .tune_request)
      else
        match pendingForCommon cb with
        | some p =>
            { flushSysex st with current := some (p, []), running_status := none }
        | none =>
            { flushSysex st with current := none, running_status := none }

/-- The parser's initial state: idle, no running status, empty queue. -/
def initState : ParserState := ⟨none, none, none, []⟩

/-- Modelled from the spec: `Parser.feed`, feeding many bytes in order. -/
def feed (st : ParserState) (bs : List Nat) : ParserState :=
  bs.foldl feed_byte st

/-- Modelled from the spec: top-level `parse_all(bytes)` — feed a
complete byte sequence to a fresh parser and return all resulting
messages in order. -/
def parse_all (bs : List Nat) : List Msg :=
  (feed initState bs).messages

/-- Modelled from the spec: top-level `parse(bytes)` — returns exactly
one message, failing (ValueError) when zero or more than one message
results. -/
def parse (bs : List Nat) : Except String Msg :=
  match parse_all bs with
  | [] => .error "parse got no messages"
  | [m] => .ok m
  | _ => .error "parse got more than one message"

/-- Modelled from the spec: decoding a byte sequence that holds exactly
one wire-encoded message (the parser-internal inverse of `encode`). -/
def decode (bs : List Nat) : Option Msg :=
  match parse_all bs with
  | [m] => some m
  | _ => none

/-- Modelled from the spec: the byte-range check on `feed_byte`'s input —
each fed value must be a byte 0–255; larger values are rejected with an
error, while every value 0–255 (status bytes included) is consumed. -/
def feed_checked (st : ParserState) (b : Nat) : Except String ParserState :=
  if b ≤ 255 then .ok (feed_byte st b) else .error "byte must be in range 0..255"

/-! ## Parser lemmas -/

lemma classify_data (b : Nat) (h : b < 128) : classify b = .dataByte b := by
  simp [classify, h]

lemma classify_channel (t ch : Nat) (h8 : 8 ≤ t) (h14 : t ≤ 14) (hch : ch < 16) :
    classify (16 * t + ch) = .channelStatus t ch := by
  have h1 : ¬ 16 * t + ch < 128 := by omega
  have h2 : 16 * t + ch < 240 := by omega
  simp only [classify, if_neg h1, if_pos h2]
  congr 1 <;> omega

lemma feed_byte_channel (st : ParserState) (t ch : Nat)
    (h8 : 8 ≤ t) (h14 : t ≤ 14) (hch : ch < 16) :
    feed_byte st (16 * t + ch) =
      { flushSysex st with current := some (.channelMsg t ch, []),
                           running_status := some (t, ch) } := by
  unfold feed_byte
  rw [classify_channel t ch h8 h14 hch]

lemma feed_byte_data_pending (p0 : Pending) (args : List Nat)
    (rs : Option (Nat × Nat)) (ms : List Msg) (d : Nat) (hd : d < 128) :
    feed_byte ⟨some (p0, args), rs, none, ms⟩ d =
      addData ⟨some (p0, args), rs, none, ms⟩ p0 args d := by
  unfold feed_byte
  rw [classify_data d hd]

lemma feed_pending1 (p0 : Pending) (rs : Option (Nat × Nat)) (ms : List Msg)
    (hp : p0.needed = 1) (d : Nat) (hd : d < 128) :
    feed ⟨some (p0, []), rs, none, ms⟩ [d] =
      ⟨none, rs, none, ms ++ (p0.build [d]).toList⟩ := by
  simp only [feed, List.foldl_cons, List.foldl_nil]
  rw [feed_byte_data_pending p0 [] rs ms d hd]
  simp [addData, hp, emit]

lemma feed_pending2 (p0 : Pending) (rs : Option (Nat × Nat)) (ms : List Msg)
    (hp : p0.needed = 2) (l m : Nat) (hl : l < 128) (hm : m < 128) :
    feed ⟨some (p0, []), rs, none, ms⟩ [l, m] =
      ⟨none, rs, none, ms ++ (p0.build [l, m]).toList⟩ := by
  simp only [feed, List.foldl_cons, List.foldl_nil]
  rw [feed_byte_data_pending p0 [] rs ms l hl]
  have h1 : addData ⟨some (p0, []), rs, none, ms⟩ p0 [] l =
      ⟨some (p0, [l]), rs, none, ms⟩ := by
    simp [addData, hp]
  rw [h1, feed_byte_data_pending p0 [l] rs ms m hm]
  simp [addData, hp, emit]

lemma parse_all_cons (b : Nat) (bs : List Nat) :
    parse_all (b :: bs) = (feed (feed_byte initState b) bs).messages := by
  simp [parse_all, feed]

lemma decode_single (bs : List Nat) (m : Msg) (h : parse_all bs = [m]) :
    decode bs = some m := by
  simp [decode, h]

lemma feed_sysex_data (c : Option (Pending × List Nat)) (rs : Option (Nat × Nat))
    (ms : List Msg) (acc d : List Nat) (hd : ∀ x ∈ d, x < 128) :
    feed ⟨c, rs, some acc, ms⟩ d = ⟨c, rs, some (acc ++ d), ms⟩ := by
  induction d generalizing acc with
  | nil => simp [feed]
  | cons x xs ih =>
      have hx : x < 128 := hd x (by simp)
      have hstep : feed_byte ⟨c, rs, some acc, ms⟩ x = ⟨c, rs, some (acc ++ [x]), ms⟩ := by
        unfold feed_byte
        rw [classify_data x hx]
      simp only [feed, List.foldl_cons, hstep]
      have := ih (acc ++ [x]) (fun y hy => hd y (by simp [hy]))
      simp only [feed] at this
      rw [this, List.append_assoc]
      rfl

lemma flushSysex_none (st : ParserState) (h : st.in_sysex = none) : flushSysex st = st := by
  unfold flushSysex
  rw [h]

lemma decode_channel2 (t ch n v : Nat) (h8 : 8 ≤ t) (h14 : t ≤ 14)
    (hne : ¬(t = 12 ∨ t = 13)) (hch : ch < 16) (hn : n < 128) (hv : v < 128)
    (msg : Msg) (hb : Pending.build (.channelMsg t ch) [n, v] = some msg) :
    decode [16 * t + ch, n, v] = some msg := by
  apply decode_single
  rw [parse_all_cons, feed_byte_channel initState t ch h8 h14 hch]
  show (feed ⟨some (.channelMsg t ch, []), some (t, ch), none, []⟩ [n, v]).messages = [msg]
  rw [feed_pending2 _ _ _ (by simp [Pending.needed, hne]) n v hn hv]
  simp [hb]

lemma decode_channel1 (t ch d : Nat) (h8 : 8 ≤ t) (h14 : t ≤ 14)
    (heq : t = 12 ∨ t = 13) (hch : ch < 16) (hd : d < 128)
    (msg : Msg) (hb : Pending.build (.channelMsg t ch) [d] = some msg) :
    decode [16 * t + ch, d] = some msg := by
  apply decode_single
  rw [parse_all_cons, feed_byte_channel initState t ch h8 h14 hch]
  show (feed ⟨some (.channelMsg t ch, []), some (t, ch), none, []⟩ [d]).messages = [msg]
  rw [feed_pending1 _ _ _ (by simp [Pending.needed, heq]) d hd]
  simp [hb]

lemma decode_common1 (p0 : Pending) (s : Nat)
    (hs : feed_byte initState s = ⟨some (p0, []), none, none, []⟩)
    (hp : p0.needed = 1) (d : Nat) (hd : d < 128)
    (msg : Msg) (hb : p0.build [d] = some msg) :
    decode [s, d] = some msg := by
  apply decode_single
  rw [parse_all_cons, hs, feed_pending1 p0 none [] hp d hd]
  simp [hb]

lemma decode_common2 (p0 : Pending) (s : Nat)
    (hs : feed_byte initState s = ⟨some (p0, []), none, none, []⟩)
    (hp : p0.needed = 2) (l m : Nat) (hl : l < 128) (hm : m < 128)
    (msg : Msg) (hb : p0.build [l, m] = some msg) :
    decode [s, l, m] = some msg := by
  apply decode_single
  rw [parse_all_cons, hs, feed_pending2 p0 none [] hp l m hl hm]
  simp [hb]

/-- C1: for every message type and every message whose constructor
arguments lie within the declared valid ranges, feeding the byte sequence
produced by `encode` back through the parser decodes to a message equal
to the original: `decode (encode msg) = some msg`. -/
theorem c1_decode_encode_roundtrip (m : Msg) (hv : m.valid) :
    decode m.encode = some m := by
  cases m with
  | note_off ch n v =>
      obtain ⟨hch, hn, hvel⟩ := hv
      have henc : Msg.encode (.note_off ch n v) = [16 * 8 + ch, n, v] := by
        norm_num [Msg.encode]
      rw [henc]
      exact decode_channel2 8 ch n v (by norm_num) (by norm_num) (by norm_num)
        hch hn hvel _ (by simp [Pending.build])
  | note_on ch n v =>
      obtain ⟨hch, hn, hvel⟩ := hv
      have henc : Msg.encode (.note_on ch n v) = [16 * 9 + ch, n, v] := by
        norm_num [Msg.encode]
      rw [henc]
      exact decode_channel2 9 ch n v (by norm_num) (by norm_num) (by norm_num)
        hch hn hvel _ (by simp [Pending.build])
  | polytouch ch n v =>
      obtain ⟨hch, hn, hvel⟩ := hv
      have henc : Msg.encode (.polytouch ch n v) = [16 * 10 + ch, n, v] := by
        norm_num [Msg.encode]
      rw [henc]
      exact decode_channel2 10 ch n v (by norm_num) (by norm_num) (by norm_num)
        hch hn hvel _ (by simp [Pending.build])
  | control_change ch c v =>
      obtain ⟨hch, hc, hvel⟩ := hv
      have henc : Msg.encode (.control_change ch c v) = [16 * 11 + ch, c, v] := by
        norm_num [Msg.encode]
      rw [henc]
      exact decode_channel2 11 ch c v (by norm_num) (by norm_num) (by norm_num)
        hch hc hvel _ (by simp [Pending.build])
  | program_change ch p =>
      obtain ⟨hch, hp⟩ := hv
      have henc : Msg.encode (.program_change ch p) = [16 * 12 + ch, p] := by
        norm_num [Msg.encode]
      rw [henc]
      exact decode_channel1 12 ch p (by norm_num) (by norm_num) (by norm_num)
        hch hp _ (by simp [Pending.build])
  | aftertouch ch v =>
      obtain ⟨hch, hvel⟩ := hv
      have henc : Msg.encode (.aftertouch ch v) = [16 * 13 + ch, v] := by
        norm_num [Msg.encode]
      rw [henc]
      exact decode_channel1 13 ch v (by norm_num) (by norm_num) (by norm_num)
        hch hvel _ (by simp [Pending.build])
  | pitchwheel ch p =>
      obtain ⟨hch, hlo, hhi⟩ := hv
      have hq1 : (p + 8192).toNat % 128 < 128 := by omega
      have hq2 : (p + 8192).toNat / 128 < 128 := by omega
      have henc : Msg.encode (.pitchwheel ch p) =
          [16 * 14 + ch, (p + 8192).toNat % 128, (p + 8192).toNat / 128] := by
        norm_num [Msg.encode]
      rw [henc]
      refine decode_channel2 14 ch _ _ (by norm_num) (by norm_num) (by norm_num)
        hch hq1 hq2 _ ?_
      simp only [Pending.build, Option.some.injEq]
      congr 1
      omega
  | sysex d =>
      apply decode_single
      have henc : Msg.encode (.sysex d) = 0xF0 :: (d ++ [0xF7]) := rfl
      rw [henc, parse_all_cons]
      have h0 : feed_byte initState 0xF0 = ⟨none, none, some [], []⟩ := by decide
      rw [h0]
      have hsplit : feed (⟨none, none, some [], []⟩ : ParserState) (d ++ [0xF7]) =
          feed (feed ⟨none, none, some [], []⟩ d) [0xF7] := by
        simp [feed, List.foldl_append]
      rw [hsplit, feed_sysex_data none none [] [] d hv, List.nil_append]
      have h7 : feed (⟨none, none, some d, []⟩ : ParserState) [0xF7] =
          ⟨none, none, none, [.sysex d]⟩ := by
        simp only [feed, List.foldl_cons, List.foldl_nil]
        unfold feed_byte
        have hc : classify 0xF7 = .sysexEnd := by decide
        rw [hc]
        simp [flushSysex]
      rw [h7]
  | quarter_frame t v =>
      obtain ⟨ht, hfv⟩ := hv
      have hd : 16 * t + v < 128 := by omega
      have henc : Msg.encode (.quarter_frame t v) = [0xF1, 16 * t + v] := rfl
      rw [henc]
      refine decode_common1 .quarterFrame 0xF1 (by decide) (by decide)
        _ hd _ ?_
      simp only [Pending.build, Option.some.injEq]
      congr 1 <;> omega
  | songpos p =>
      have hp : p < 16384 := hv
      have hl : p % 128 < 128 := by omega
      have hm : p / 128 < 128 := by omega
      have henc : Msg.encode (.songpos p) = [0xF2, p % 128, p / 128] := rfl
      rw [henc]
      refine decode_common2 .songPosition 0xF2 (by decide) (by decide)
        _ _ hl hm _ ?_
      simp only [Pending.build, Option.some.injEq]
      congr 1
      omega
  | song_select s =>
      have henc : Msg.encode (.song_select s) = [0xF3, s] := rfl
      rw [henc]
      exact decode_common1 .songSelect 0xF3 (by decide) (by decide) s hv _
        (by simp [Pending.build])
  | tune_request => decide
  | clock => decide
  | start => decide
  | continue_ => decide
  | stop => decide
  | active_sensing => decide
  | reset => decide

/-- Witness for C1 at a concrete valid message. -/
theorem c1_decode_encode_roundtrip_witness :
    (Msg.note_on 0 60 64).valid ∧
      decode (Msg.encode (.note_on 0 60 64)) = some (.note_on 0 60 64) :=
  ⟨by decide, c1_decode_encode_roundtrip (.note_on 0 60 64) (by decide)⟩

/-- C2: feeding the five bytes `[0x90, 60, 64, 61, 100]` produces exactly
two `note_on` messages, both on channel 0, with notes 60 and 61: the
channel-voice status byte 0x90 sets the running status, and the second
pair of data bytes reuses it as an implicit status byte. -/
theorem c2_running_status :
    parse_all [0x90, 60, 64, 61, 100] =
      [.note_on 0 60 64, .note_on 0 61 100] ∧
    (feed initState [0x90, 60, 64, 61, 100]).running_status = some (9, 0) ∧
    (feed_byte initState 0x90).running_status = some (9, 0) := by
  refine ⟨by decide, by decide, by decide⟩

/-- C3: feeding `[0xF0, 1, 2, 0xF8, 3, 0xF7]` yields the `clock` message
followed by a completed sysex with data `[1, 2, 3]`: the real-time byte
0xF8 is emitted immediately, and for every parser state it leaves the
pending buffer, running status, and sysex accumulation untouched, so the
clock does not truncate the sysex. -/
theorem c3_realtime_interleaving :
    parse_all [0xF0, 1, 2, 0xF8, 3, 0xF7] = [.clock, .sysex [1, 2, 3]] ∧
    ∀ st : ParserState, feed_byte st 0xF8 =
      { st with messages := st.messages ++ [.clock] } := by
  refine ⟨by decide, fun st => ?_⟩
  unfold feed_byte
  have hc : classify 0xF8 = .realtime 0xF8 := by decide
  rw [hc]
  norm_num [emit, realtimeMsg]

/-- C4: for every complete input byte sequence, the top-level `parse`
returns exactly the single resulting message when the sequence parses to
one message, and fails with an error whenever the sequence yields zero
messages or more than one message. -/
theorem c4_parse_exactly_one (bs : List Nat) :
    (∀ m : Msg, parse bs = .ok m ↔ parse_all bs = [m]) ∧
    ((parse_all bs).length ≠ 1 → ∃ e, parse bs = Except.error e) := by
  rcases h : parse_all bs with _ | ⟨m0, _ | ⟨m1, rest⟩⟩
  · exact ⟨fun m => by simp [parse, h],
      fun _ => ⟨"parse got no messages", by simp [parse, h]⟩⟩
  · refine ⟨fun m => ?_, fun hlen => absurd (by simp [h]) hlen⟩
    simp [parse, h]
  · exact ⟨fun m => by simp [parse, h],
      fun _ => ⟨"parse got more than one message", by simp [parse, h]⟩⟩

/-- Witness for C4: a three-byte note_on parses to exactly one message,
and the empty sequence (zero messages) fails with an error. -/
theorem c4_parse_exactly_one_witness :
    parse [0x90, 60, 64] = .ok (.note_on 0 60 64) ∧
    (∃ e, parse ([] : List Nat) = Except.error e) :=
  ⟨((c4_parse_exactly_one [0x90, 60, 64]).1 _).2 (by decide),
   (c4_parse_exactly_one []).2 (by decide)⟩

/-- C7: the byte-stream parser accepts every byte value 0–255 — status
bytes above 127 are consumed, not rejected — while values above 255 are
outside the domain and rejected; a data byte arriving with no status
context is silently discarded, so the valid input domain is 0–255 rather
than 0..127. -/
theorem c7_full_byte_range :
    (∀ (st : ParserState) (b : Nat), b ≤ 255 →
        ∃ st', feed_checked st b = .ok st') ∧
    (∀ (st : ParserState) (b : Nat), 255 < b →
        feed_checked st b = .error "byte must be in range 0..255") ∧
    (∀ b : Nat, b < 128 → feed_byte initState b = initState) := by
  refine ⟨fun st b hb => ⟨feed_byte st b, by simp [feed_checked, hb]⟩,
          fun st b hb => ?_, fun b hb => ?_⟩
  · unfold feed_checked
    rw [if_neg (by omega)]
  · unfold feed_byte initState
    rw [classify_data b hb]

/-- Witness for C7: the status byte 0x90 (above 127) is accepted, 300 is
rejected, and the stray data byte 5 is discarded from the idle state. -/
theorem c7_full_byte_range_witness :
    (∃ st', feed_checked initState 0x90 = .ok st') ∧
    feed_checked initState 300 = .error "byte must be in range 0..255" ∧
    feed_byte initState 5 = initState :=
  ⟨c7_full_byte_range.1 initState 0x90 (by decide),
   c7_full_byte_range.2.1 initState 300 (by decide),
   c7_full_byte_range.2.2 5 (by decide)⟩

/-! ## Variable-length quantities (MIDI file delta times) -/

/-- Modelled from the spec: the 7-bit big-endian chunks of a delta-time
value (source file `mido/midifiles.py` is absent): most significant chunk
first, at least one chunk. -/
def vlqChunks (n : Nat) : List Nat :=
  if n < 128 then [n]
  else vlqChunks (n / 128) ++ [n % 128]
termination_by n
decreasing_by omega

/-- Modelled from the spec: set the continuation bit (high bit) on every
encoded byte except the last. -/
def markCont : List Nat → List Nat
  | [] => []
  | [b] => [b]
  | b :: rest => (b + 128) :: markCont rest

/-- Modelled from the spec: the variable-length-quantity encoder for MIDI
file delta times — each byte contributes its low 7 bits, the high bit
means "more bytes follow", most-significant chunk first, minimum number
of bytes, at least one. -/
def encode_variable_int (n : Nat) : List Nat :=
  markCont (vlqChunks n)

/-- Modelled from the spec: the VLQ decoder loop, carrying the value
accumulated so far and the number of continuation bytes already consumed;
it fails once more than 4 continuation bytes are seen without
termination. -/
def decodeVlqAux : List Nat → Nat → Nat → Option (Nat × List Nat)
  | [], _, _ => none
  | b :: rest, acc, cont =>
      if b < 128 then some (acc * 128 + b, rest)
      else if cont ≥ 4 then none
      else decodeVlqAux rest (acc * 128 + (b - 128)) (cont + 1)

/-- Modelled from the spec: the variable-length-quantity decoder —
returns the decoded value and the remaining bytes, or fails on truncated
or over-long (more than 4 continuation bytes) input. -/
def decode_variable_int (bs : List Nat) : Option (Nat × List Nat) :=
  decodeVlqAux bs 0 0

lemma vlqChunks_of_lt (n : Nat) (h : n < 128) : vlqChunks n = [n] := by
  rw [vlqChunks, if_pos h]

lemma vlqChunks_step (n : Nat) (h : 128 ≤ n) :
    vlqChunks n = vlqChunks (n / 128) ++ [n % 128] := by
  rw [vlqChunks]
  rw [if_neg (by omega)]

lemma vlqChunks_128 : vlqChunks 128 = [1, 0] := by
  rw [vlqChunks_step 128 (by norm_num)]
  norm_num
  rw [vlqChunks_of_lt 1 (by norm_num)]
  rfl

lemma vlqChunks_16383 : vlqChunks 16383 = [127, 127] := by
  rw [vlqChunks_step 16383 (by norm_num)]
  norm_num
  rw [vlqChunks_of_lt 127 (by norm_num)]
  rfl

lemma vlqChunks_16384 : vlqChunks 16384 = [1, 0, 0] := by
  rw [vlqChunks_step 16384 (by norm_num)]
  norm_num
  rw [vlqChunks_128]
  rfl

lemma vlqChunks_2097151 : vlqChunks 2097151 = [127, 127, 127] := by
  rw [vlqChunks_step 2097151 (by norm_num)]
  norm_num
  rw [vlqChunks_16383]
  rfl

lemma markCont_length (l : List Nat) : (markCont l).length = l.length := by
  induction l with
  | nil => rfl
  | cons b rest ih =>
      cases rest with
      | nil => rfl
      | cons c cs =>
          simp only [markCont, List.length_cons] at ih ⊢
          omega

lemma vlqChunks_length_pos (n : Nat) : 1 ≤ (vlqChunks n).length := by
  unfold vlqChunks
  split
  · simp
  · simp

lemma vlqChunks_length_le : ∀ k n, 1 ≤ k → n < 128 ^ k → (vlqChunks n).length ≤ k := by
  intro k
  induction k with
  | zero => intro n h _; omega
  | succ k ih =>
      intro n _ hn
      unfold vlqChunks
      split
      · simp
      · rename_i hge
        rcases Nat.eq_zero_or_pos k with hk0 | hkpos
        · subst hk0
          norm_num at hn
          omega
        · have hdiv : n / 128 < 128 ^ k := by
            have hlt : n < 128 ^ k * 128 := by
              rw [← pow_succ]
              exact hn
            exact (Nat.div_lt_iff_lt_mul (by norm_num)).2 hlt
          have := ih (n / 128) hkpos hdiv
          simp only [List.length_append, List.length_cons, List.length_nil]
          omega

/-- C5: the variable-length-quantity codec round-trips the tick counts
0, 127, 128, 16383, 16384 and 2097151; the encoder emits the minimum
number of bytes (at least one, and no more than any byte count whose
7-bit capacity covers the value — in particular at most 4 bytes for any
value representable in 28 bits); and the decoder fails when more than 4
continuation bytes arrive without termination. -/
theorem c5_vlq_roundtrip :
    (∀ n ∈ [0, 127, 128, 16383, 16384, 2097151],
        decode_variable_int (encode_variable_int n) = some (n, [])) ∧
    (∀ n : Nat, 1 ≤ (encode_variable_int n).length) ∧
    (∀ n k : Nat, 1 ≤ k → n < 128 ^ k → (encode_variable_int n).length ≤ k) ∧
    (∀ n : Nat, n < 2 ^ 28 → (encode_variable_int n).length ≤ 4) ∧
    (∀ b1 b2 b3 b4 b5 : Nat, ∀ rest : List Nat,
        128 ≤ b1 → 128 ≤ b2 → 128 ≤ b3 → 128 ≤ b4 → 128 ≤ b5 →
        decode_variable_int (b1 :: b2 :: b3 :: b4 :: b5 :: rest) = none) := by
  refine ⟨?_, ?_, ?_, ?_, ?_⟩
  · intro n hn
    fin_cases hn
    · rw [encode_variable_int, vlqChunks_of_lt 0 (by norm_num)]; decide
    · rw [encode_variable_int, vlqChunks_of_lt 127 (by norm_num)]; decide
    · rw [encode_variable_int, vlqChunks_128]; decide
    · rw [encode_variable_int, vlqChunks_16383]; decide
    · rw [encode_variable_int, vlqChunks_16384]; decide
    · rw [encode_variable_int, vlqChunks_2097151]; decide
  · intro n
    rw [encode_variable_int, markCont_length]
    exact vlqChunks_length_pos n
  · intro n k hk hn
    rw [encode_variable_int, markCont_length]
    exact vlqChunks_length_le k n hk hn
  · intro n hn
    rw [encode_variable_int, markCont_length]
    exact vlqChunks_length_le 4 n (by norm_num) (by norm_num at hn ⊢; omega)
  · intro b1 b2 b3 b4 b5 rest h1 h2 h3 h4 h5
    simp only [decode_variable_int, decodeVlqAux]
    rw [if_neg (by omega), if_neg (by norm_num)]
    rw [if_neg (by omega), if_neg (by norm_num)]
    rw [if_neg (by omega), if_neg (by norm_num)]
    rw [if_neg (by omega), if_neg (by norm_num)]
    rw [if_neg (by omega), if_pos (by norm_num)]

/-- Witness for C5 at concrete inputs: the largest listed tick count
round-trips, a 28-bit value encodes in at most 4 bytes, and five
continuation bytes make the decoder fail. -/
theorem c5_vlq_roundtrip_witness :
    decode_variable_int (encode_variable_int 2097151) = some (2097151, []) ∧
    (encode_variable_int 268435455).length ≤ 4 ∧
    decode_variable_int [129, 130, 131, 132, 133] = none :=
  ⟨c5_vlq_roundtrip.1 2097151 (by norm_num),
   c5_vlq_roundtrip.2.2.2.1 268435455 (by norm_num),
   c5_vlq_roundtrip.2.2.2.2 129 130 131 132 133 [] (by norm_num) (by norm_num)
     (by norm_num) (by norm_num) (by norm_num)⟩

/-! ## Tempo arithmetic -/

/-- Modelled from the spec: `bpm2tempo(bpm, time_signature_denominator=4)`
(source file `mido/midifiles.py` is absent): microseconds per quarter
note, `round(60_000_000 / bpm * (time_signature_denominator / 4))`,
modelled over exact rationals. -/
def bpm2tempo (bpm time_signature_denominator : ℚ) : ℤ :=
  round (60000000 / bpm * (time_signature_denominator / 4))

/-- Modelled from the spec: `tempo2bpm(tempo, time_signature_denominator)`
(source file `mido/midifiles.py` is absent): the inverse conversion,
beats per minute `60_000_000 / tempo * (time_signature_denominator / 4)`,
modelled over exact rationals. -/
def tempo2bpm (tempo time_signature_denominator : ℚ) : ℚ :=
  60000000 / tempo * (time_signature_denominator / 4)

/-- C6: `bpm2tempo` equals `round(60_000_000 / bpm * (denominator / 4))`
for every bpm and denominator; `tempo2bpm` inverts the unrounded
conversion exactly, so it is the inverse of `bpm2tempo` up to rounding;
in particular `bpm2tempo 120 = 500000` and `tempo2bpm 500000 = 120`
(within the claimed tolerance of ±1, here exactly). -/
theorem c6_tempo_arithmetic :
    (∀ bpm d : ℚ, bpm2tempo bpm d = round (60000000 / bpm * (d / 4))) ∧
    bpm2tempo 120 4 = 500000 ∧
    tempo2bpm 500000 4 = 120 ∧
    |tempo2bpm 500000 4 - 120| ≤ 1 ∧
    (∀ bpm d : ℚ, bpm ≠ 0 → d ≠ 0 →
        tempo2bpm (60000000 / bpm * (d / 4)) d = bpm) := by
  refine ⟨fun bpm d => rfl, ?_, ?_, ?_, ?_⟩
  · show round ((60000000 : ℚ) / 120 * (4 / 4)) = 500000
    norm_num
  · show (60000000 : ℚ) / 500000 * (4 / 4) = 120
    norm_num
  · show |(60000000 : ℚ) / 500000 * (4 / 4) - 120| ≤ 1
    norm_num
  · intro bpm d hbpm hd
    unfold tempo2bpm
    field_simp
    ring

/-- Witness for C6: the exact-inverse property instantiated at
bpm = 120 and denominator = 4. -/
theorem c6_tempo_arithmetic_witness :
    tempo2bpm (60000000 / 120 * (4 / 4)) 4 = 120 :=
  c6_tempo_arithmetic.2.2.2.2 120 4 (by norm_num) (by norm_num)

/-! ## The top-level module: `mido/__init__.py` -/

/-- Modelled from the spec: the `Backend` class of
`mido.backends.backend` (source file `mido/backends/backend.py` is
absent): the capability interface carrying the backend module name, the
load flag, the use_environ flag, and its attribute names (`dir`). -/
structure Backend where
  name : Option String
  load : Bool
  use_environ : Bool
  attrs : List String
  deriving DecidableEq

/-- Modelled from the spec: the attribute names of a `Backend` instance —
the capability interface of open_* port constructors and get_*_names
enumerations, plus its plain data attributes. -/
def backendDir : List String :=
  ["get_input_names", "get_ioport_names", "get_output_names",
   "load", "loaded", "module", "name",
   "open_input", "open_ioport", "open_output", "use_environ"]

/-- Modelled from the spec: constructing `Backend(name, load=..., use_environ=...)`. -/
def Backend.construct (name : Option String) (load : Bool)
    (use_environ : Bool) : Backend :=
  ⟨name, load, use_environ, backendDir⟩

/-- A value bound in the module's global namespace: the installed backend
object, an attribute fetched from a backend via `getattr`, or one of the
module's other import-time bindings. -/
inductive PyValue where
  | backendVal (b : Backend)
  | attrVal (b : Backend) (attr : String)
  | plain (tag : String)
  deriving DecidableEq

/-- The module's global namespace (`globals()`), as a map from names to
optionally bound values. -/
abbrev Globals := String → Option PyValue

/-- Bind one name in the global namespace (`glob[name] = value`). -/
def bindG (g : Globals) (k : String) (v : PyValue) : Globals :=
  fun x => if x = k then some v else g x

/-- Python's `name.split('_')[0]` on the underlying characters: everything
before the first underscore. -/
def firstTokenAux : List Char → List Char
  | [] => []
  | c :: cs => if c = '_' then [] else c :: firstTokenAux cs

/-- Python's `name.split('_')[0]`: the first underscore-separated token. -/
def firstToken (s : String) : String :=
  ⟨firstTokenAux s.data⟩

/-- The loop of `set_backend` (`mido/__init__.py` lines 102–104): for
every name in `dir(backend)` whose first underscore-separated token is
`open` or `get`, bind `getattr(backend, name)` as a module global. -/
def injectAttrs (b : Backend) (g : Globals) : List String → Globals
  | [] => g
  | n :: ns =>
      if firstToken n = "open" ∨ firstToken n = "get" then
        injectAttrs b (bindG g n (.attrVal b n)) ns
      else injectAttrs b g ns

/-- The `name` argument of `set_backend`: absent (`None`), a module name
string, or an already-constructed `Backend` object. -/
inductive BackendArg where
  | noName
  | moduleName (s : String)
  | backendObj (b : Backend)
  deriving DecidableEq

/-- The backend chosen by `set_backend` (`mido/__init__.py` lines 96–99):
a `Backend` instance is used unchanged; otherwise
`Backend(name, load=load, use_environ=True)` is constructed. -/
def chosenBackend (arg : BackendArg) (load : Bool) : Backend :=
  match arg with
  | .backendObj b => b
  | .moduleName s => Backend.construct (some s) load true
  | .noName => Backend.construct none load true

/-- `set_backend(name=None, load=False)` from `mido/__init__.py` lines
82–104: choose the backend, store it as the module global `backend`
(`glob['backend'] = backend`), then inject every `open*`/`get*`
attribute of the backend into the module globals. -/
def set_backend (glob : Globals) (arg : BackendArg) (load : Bool) : Globals :=
  injectAttrs (chosenBackend arg load)
    (bindG glob "backend" (.backendVal (chosenBackend arg load)))
    (chosenBackend arg load).attrs

/-- The names bound at module level in `mido/__init__.py` by its import
statements and definitions (lines 61–82), before `set_backend()` runs. -/
def midoModuleNames : List String :=
  ["Backend", "ports", "sockets", "Message", "parse_string",
   "parse_string_stream", "format_as_string", "FrozenMessage",
   "FrozenMetaMessage", "freeze", "Parser", "parse", "parse_all",
   "MidiFile", "MidiFileError", "MidiTrack", "merge_tracks",
   "MetaMessage", "bpm2tempo", "tempo2bpm", "read_syx_file",
   "write_syx_file", "set_backend"]

/-- The import-time global namespace of the module, before the
`set_backend()` call. -/
def importGlobals : Globals :=
  midoModuleNames.foldl (fun g n => bindG g n (.plain n)) (fun _ => none)

/-- The module globals immediately after `import mido`: the import-time
bindings followed by the `set_backend()` call at line 106 (defaults:
`name=None`, `load=False`). -/
def moduleGlobalsAfterImport : Globals :=
  set_backend importGlobals .noName false

/-- `__all__ = []` (`mido/__init__.py` line 80). -/
def mido_all : List String := []

/-- Python star-import semantics: `from M import *` binds exactly the
names listed in `M.__all__` when that attribute is defined, else the
public (non-underscore) names. -/
def star_import (all_attr : Option (List String))
    (moduleNames : List String) : List String :=
  match all_attr with
  | some names => names
  | none => moduleNames.filter (fun n => n.data.head? ≠ some '_')

lemma injectAttrs_preserve (b : Backend) (g : Globals) (ns : List String)
    (x : String) (hx : ¬(firstToken x = "open" ∨ firstToken x = "get")) :
    injectAttrs b g ns x = g x := by
  induction ns generalizing g with
  | nil => rfl
  | cons n ns ih =>
      unfold injectAttrs
      by_cases hn : firstToken n = "open" ∨ firstToken n = "get"
      · rw [if_pos hn, ih (bindG g n (.attrVal b n))]
        unfold bindG
        rw [if_neg (fun hxn : x = n => hx (hxn ▸ hn))]
      · rw [if_neg hn]
        exact ih g

lemma injectAttrs_preserve_notmem (b : Backend) (g : Globals)
    (ns : List String) (x : String) (hx : x ∉ ns) :
    injectAttrs b g ns x = g x := by
  induction ns generalizing g with
  | nil => rfl
  | cons n ns ih =>
      have hxn : x ≠ n := fun h => hx (h ▸ List.mem_cons_self n ns)
      have hxs : x ∉ ns := fun h => hx (List.mem_cons_of_mem n h)
      unfold injectAttrs
      by_cases hn : firstToken n = "open" ∨ firstToken n = "get"
      · rw [if_pos hn, ih (bindG g n (.attrVal b n)) hxs]
        unfold bindG
        rw [if_neg hxn]
      · rw [if_neg hn]
        exact ih g hxs

lemma injectAttrs_hit (b : Backend) (g : Globals) (ns : List String)
    (a : String) (ha : a ∈ ns)
    (hg : firstToken a = "open" ∨ firstToken a = "get") :
    injectAttrs b g ns a = some (.attrVal b a) := by
  induction ns generalizing g with
  | nil => cases ha
  | cons n ns ih =>
      unfold injectAttrs
      by_cases hmem : a ∈ ns
      · by_cases hn : firstToken n = "open" ∨ firstToken n = "get"
        · rw [if_pos hn]
          exact ih _ hmem
        · rw [if_neg hn]
          exact ih _ hmem
      · have han : a = n := by
          rcases List.mem_cons.1 ha with h | h
          · exact h
          · exact absurd h hmem
        subst han
        rw [if_pos hg, injectAttrs_preserve_notmem b _ ns a hmem]
        unfold bindG
        rw [if_pos rfl]

/-- C8 counterexample: running `set_backend()` on an empty global
namespace binds the backend attribute name `open_input` — a module global
other than the recorded backend selection — so globals other than
`backend` do change. -/
theorem c8_counterexample :
    (fun _ => none : Globals) "open_input" = none ∧
    set_backend (fun _ => none) .noName false "open_input" =
      some (.attrVal (Backend.construct none false true) "open_input") ∧
    "open_input" ≠ "backend" := by
  refine ⟨rfl, ?_, by decide⟩
  decide

/-- C8 (amended): `set_backend` records the chosen backend as the module
global `backend` and additionally injects each backend attribute whose
first underscore-separated token is `open` or `get` into the module's
global namespace; globals whose names are neither `backend` nor such an
injected attribute are unchanged. -/
theorem c8_amended_injection (glob : Globals) (arg : BackendArg) (load : Bool) :
    set_backend glob arg load "backend" =
      some (.backendVal (chosenBackend arg load)) ∧
    (∀ a ∈ (chosenBackend arg load).attrs,
        (firstToken a = "open" ∨ firstToken a = "get") →
        set_backend glob arg load a =
          some (.attrVal (chosenBackend arg load) a)) ∧
    (∀ x : String, x ≠ "backend" →
        ¬(firstToken x = "open" ∨ firstToken x = "get") →
        set_backend glob arg load x = glob x) ∧
    (∀ x : String, x ≠ "backend" → x ∉ (chosenBackend arg load).attrs →
        set_backend glob arg load x = glob x) := by
  refine ⟨?_, fun a ha hg => injectAttrs_hit _ _ _ a ha hg, fun x hx hg => ?_, fun x hx hm => ?_⟩
  · rw [set_backend, injectAttrs_preserve _ _ _ "backend" (by decide)]
    unfold bindG
    rw [if_pos rfl]
  · rw [set_backend, injectAttrs_preserve _ _ _ x hg]
    unfold bindG
    rw [if_neg hx]
  · rw [set_backend, injectAttrs_preserve_notmem _ _ _ x hm]
    unfold bindG
    rw [if_neg hx]

/-- Witness for the amended C8: on the empty namespace, `set_backend()`
records the backend under `backend`, injects `open_input`, and leaves the
unrelated name `sockets` unchanged. -/
theorem c8_amended_injection_witness :
    set_backend (fun _ => none) .noName false "backend" =
      some (.backendVal (chosenBackend .noName false)) ∧
    set_backend (fun _ => none) .noName false "sockets" =
      (fun _ => none : Globals) "sockets" :=
  ⟨(c8_amended_injection (fun _ => none) .noName false).1,
   (c8_amended_injection (fun _ => none) .noName false).2.2.1 "sockets"
     (by decide) (by decide)⟩

/-- C9: `__all__` is the empty list, so a star import of the module binds
no names at all, while the public entry points (`Message`, `Parser`,
`parse`, `MidiFile`, …) remain reachable by explicit attribute access on
the module. -/
theorem c9_empty_all :
    mido_all = [] ∧
    (∀ names : List String, star_import (some mido_all) names = []) ∧
    ("Message" ∈ midoModuleNames ∧ "Parser" ∈ midoModuleNames ∧
     "parse" ∈ midoModuleNames ∧ "MidiFile" ∈ midoModuleNames) ∧
    moduleGlobalsAfterImport "Message" = some (.plain "Message") ∧
    moduleGlobalsAfterImport "MidiFile" = some (.plain "MidiFile") := by
  refine ⟨rfl, fun names => rfl, by decide, by decide, by decide⟩

/-- C10: `set_backend` installs an already-constructed `Backend` argument
unchanged as the module global `backend`; otherwise it constructs
`Backend(name, load=load, use_environ=True)`; in both cases every backend
attribute whose first underscore-separated token is `open` or `get` is
bound as a module global of the same name; and since `set_backend()` runs
once at import time, those globals exist immediately after import. -/
theorem c10_set_backend_install (glob : Globals) (load : Bool) :
    (∀ b : Backend,
        set_backend glob (.backendObj b) load "backend" =
          some (.backendVal b)) ∧
    (∀ s : String,
        set_backend glob (.moduleName s) load "backend" =
          some (.backendVal (Backend.construct (some s) load true))) ∧
    set_backend glob .noName load "backend" =
      some (.backendVal (Backend.construct none load true)) ∧
    (∀ s : String, (chosenBackend (.moduleName s) load).use_environ = true ∧
        (chosenBackend (.moduleName s) load).name = some s ∧
        (chosenBackend (.moduleName s) load).load = load) ∧
    (∀ (arg : BackendArg) (a : String), a ∈ (chosenBackend arg load).attrs →
        (firstToken a = "open" ∨ firstToken a = "get") →
        set_backend glob arg load a =
          some (.attrVal (chosenBackend arg load) a)) ∧
    (∀ a ∈ backendDir, (firstToken a = "open" ∨ firstToken a = "get") →
        moduleGlobalsAfterImport a ≠ none) := by
  have hback : ∀ arg : BackendArg, set_backend glob arg load "backend" =
      some (.backendVal (chosenBackend arg load)) := by
    intro arg
    rw [set_backend, injectAttrs_preserve _ _ _ "backend" (by decide)]
    unfold bindG
    rw [if_pos rfl]
  refine ⟨fun b => hback (.backendObj b), fun s => hback (.moduleName s),
    hback .noName, fun s => ⟨rfl, rfl, rfl⟩,
    fun arg a ha hg => injectAttrs_hit _ _ _ a ha hg, fun a ha hg => ?_⟩
  have ha' : a ∈ (chosenBackend BackendArg.noName false).attrs := ha
  rw [moduleGlobalsAfterImport, set_backend, injectAttrs_hit _ _ _ a ha' hg]
  exact Option.some_ne_none _

/-- Witness for C10: a concrete backend object is installed unchanged,
and `open_input` and `get_input_names` are module globals right after
import. -/
theorem c10_set_backend_install_witness :
    set_backend (fun _ => none) (.backendObj ⟨some "mido.backends.rtmidi", true, false, []⟩)
        false "backend" =
      some (.backendVal ⟨some "mido.backends.rtmidi", true, false, []⟩) ∧
    moduleGlobalsAfterImport "open_input" ≠ none ∧
    moduleGlobalsAfterImport "get_input_names" ≠ none :=
  ⟨(c10_set_backend_install (fun _ => none) false).1 _,
   (c10_set_backend_install (fun _ => none) false).2.2.2.2.2 "open_input"
     (by decide) (by decide),
   (c10_set_backend_install (fun _ => none) false).2.2.2.2.2 "get_input_names"
     (by decide) (by decide)⟩
